import Mathlib

/-!
Verification of the SPARQL-Burger query builder
(`SPARQLBurger/SPARQLQueryBuilder.py`): a shallow embedding of the
graph-pattern / select-query / update-query rendering engine, together
with theorems about its rendering and mutation operations.

Python conventions are modelled explicitly:
* a method that can return either a string or the boolean `False`
  (as `SPARQLGraphPattern.get_text` does) returns `PyRet`;
* a leaf `get_text` call that may raise an exception returns
  `Option String`, with `none` standing for a raised exception;
* the `try ... except: return ""` wrappers are modelled by mapping an
  internal `none` (exception) to the empty-string result.
-/

namespace SPARQLBurger

/-- Modelled from the spec: the `Triple` syntax term of
`SPARQLSyntaxTerms` (not part of the sources under verification) is a
plain subject/predicate/object struct whose `get_text` is a one-line
interpolation rendering `subject predicate object .` plus a newline. -/
structure Triple where
  subject : String
  predicate : String
  object : String
deriving DecidableEq

/-- Modelled from the spec: `Triple.get_text` one-line interpolation. -/
def Triple.get_text (t : Triple) : String :=
  t.subject ++ " " ++ t.predicate ++ " " ++ t.object ++ " .\n"

/-- Modelled from the spec: the `Filter` syntax term of
`SPARQLSyntaxTerms` is specified only by its `get_text -> text`
contract; its render may fail internally (raise), which is modelled by
an `Option String` result (`none` = a raised exception). -/
structure Filter where
  text : Option String
deriving DecidableEq

/-- Modelled from the spec: `Filter.get_text` render contract. -/
def Filter.get_text (f : Filter) : Option String := f.text

/-- Modelled from the spec: the `Binding` syntax term, by its render
contract (`none` = a raised exception). -/
structure Binding where
  text : Option String
deriving DecidableEq

/-- Modelled from the spec: `Binding.get_text` render contract. -/
def Binding.get_text (b : Binding) : Option String := b.text

/-- Modelled from the spec: the `Having` syntax term, by its render
contract (`none` = a raised exception). -/
structure Having where
  text : Option String
deriving DecidableEq

/-- Modelled from the spec: `Having.get_text` render contract. -/
def Having.get_text (h : Having) : Option String := h.text

/-- Modelled from the spec: the `GroupBy` syntax term, by its render
contract (`none` = a raised exception). -/
structure GroupBy where
  text : Option String
deriving DecidableEq

/-- Modelled from the spec: `GroupBy.get_text` render contract. -/
def GroupBy.get_text (g : GroupBy) : Option String := g.text

/-- Modelled from the spec: the `OrderBy` syntax term, by its render
contract (`none` = a raised exception). -/
structure OrderBy where
  text : Option String
deriving DecidableEq

/-- Modelled from the spec: `OrderBy.get_text` render contract. -/
def OrderBy.get_text (o : OrderBy) : Option String := o.text

/-- Modelled from the spec: the namespace-prefix syntax term (class
`Prefix` in the source), by its render contract (`none` = a raised
exception). -/
structure PrefixObj where
  text : Option String
deriving DecidableEq

/-- Modelled from the spec: render contract of the prefix term. -/
def PrefixObj.get_text (p : PrefixObj) : Option String := p.text

/-- A dynamically-typed Python value, as far as the type checks of the
add-operations can observe it (`type(x) is list`, `type(x) is Triple`,
`type(x) is Having`, ...). -/
inductive PyVal where
  | triple (t : Triple)
  | havingV (h : Having)
  | strV (s : String)
  | intV (n : Int)
  | listV (l : List PyVal)
  | noneV

/-- Python attribute lookup `x.get_text()` on an arbitrary value: only
the syntax-term objects carry a `get_text`; on every other value the
call raises `AttributeError` (modelled as `none`). -/
def pyGetText : PyVal → Option String
  | PyVal.triple t => some t.get_text
  | PyVal.havingV h => h.text
  | _ => none

/-- Python `type(x) is Triple`. -/
def pyIsTriple : PyVal → Bool
  | PyVal.triple _ => true
  | _ => false

/-- Python `type(x) is list`. -/
def pyIsList : PyVal → Bool
  | PyVal.listV _ => true
  | _ => false

/-- The value returned by `SPARQLGraphPattern.get_text`: either a
Python string, or the Python boolean `False` (the `return False` at
lines 149 and 161 of the source). -/
inductive PyRet where
  | str (s : String)
  | boolFalse
deriving DecidableEq

/-- Python truthiness of a `PyRet` value: a string is truthy iff it is
nonempty; `False` is falsy. -/
def PyRet.truthy : PyRet → Bool
  | PyRet.str s => !(s == "")
  | PyRet.boolFalse => false

/-- `indentation_depth * "   "`: the three-space indent unit. -/
def indentStr (d : Nat) : String :=
  String.join (List.replicate d "   ")

/-- State of the entry loop of `SPARQLGraphPattern.get_text`: either
the accumulated `query_text`, or an early `return False`. -/
inductive LoopState where
  | ok (acc : String)
  | retFalse
deriving DecidableEq

/-- The binding/filter loops of `SPARQLGraphPattern.get_text`: append
`inner + item.get_text() + "\n"` for each item; a `none` item models a
raised exception aborting the whole method body. -/
def appendLines (inner : String) : List (Option String) → String → Option String
  | [], acc => some acc
  | none :: _, _ => none
  | some s :: rest, acc => appendLines inner rest (acc ++ inner ++ s ++ "\n")

/-- The group-by/having/order-by loops of `SPARQLSelectQuery.get_text`:
append `"\n" + outer + item.get_text()` for each item. -/
def appendClauseLines (outer : String) : List (Option String) → String → Option String
  | [], acc => some acc
  | none :: _, _ => none
  | some s :: rest, acc => appendClauseLines outer rest (acc ++ "\n" ++ outer ++ s)

/-- The prefix loops of the query `get_text` methods: concatenate each
prefix's text onto the accumulator. -/
def concatTexts : List (Option String) → String → Option String
  | [], acc => some acc
  | none :: _, _ => none
  | some s :: rest, acc => concatTexts rest (acc ++ s)

mutual

/-- An element of `SPARQLGraphPattern.graph`: the entry loop of
`get_text` dispatches on `type(entry)` over exactly these three
classes. -/
inductive GPEntry : Type where
  | triple (t : Triple) : GPEntry
  | pattern (p : SPARQLGraphPattern) : GPEntry
  | select (q : SPARQLSelectQuery) : GPEntry

/-- The `SPARQLGraphPattern` class: `is_optional`, `is_union`, the
`graph` entry list, `filters`, `bindings` and the (dead) `havings`
list. -/
inductive SPARQLGraphPattern : Type where
  | mk (is_optional : Bool) (is_union : Bool) (graph : List GPEntry)
      (filters : List Filter) (bindings : List Binding)
      (havings : List Having) : SPARQLGraphPattern

/-- The `SPARQLSelectQuery` class: `prefixes` and `where` inherited
from `SPARQLQuery`, plus `distinct`, `limit` (`none` models the `False`
default), `variables`, `group_by`, `having` (a list of arbitrary
values, because `add_having` performs no type check) and `order_by`. -/
inductive SPARQLSelectQuery : Type where
  | mk (prefixes : List PrefixObj) (whereP : Option SPARQLGraphPattern)
      (distinct : Bool) (limit : Option Int) (vars : List String)
      (group_by : List GroupBy) (having : List PyVal)
      (order_by : List OrderBy) : SPARQLSelectQuery

end

def SPARQLGraphPattern.is_optional : SPARQLGraphPattern → Bool
  | SPARQLGraphPattern.mk b _ _ _ _ _ => b

def SPARQLGraphPattern.is_union : SPARQLGraphPattern → Bool
  | SPARQLGraphPattern.mk _ b _ _ _ _ => b

def SPARQLGraphPattern.graph : SPARQLGraphPattern → List GPEntry
  | SPARQLGraphPattern.mk _ _ g _ _ _ => g

def SPARQLGraphPattern.filters : SPARQLGraphPattern → List Filter
  | SPARQLGraphPattern.mk _ _ _ f _ _ => f

def SPARQLGraphPattern.bindings : SPARQLGraphPattern → List Binding
  | SPARQLGraphPattern.mk _ _ _ _ b _ => b

def SPARQLGraphPattern.havings : SPARQLGraphPattern → List Having
  | SPARQLGraphPattern.mk _ _ _ _ _ h => h

def SPARQLSelectQuery.prefixes : SPARQLSelectQuery → List PrefixObj
  | SPARQLSelectQuery.mk p _ _ _ _ _ _ _ => p

def SPARQLSelectQuery.whereP : SPARQLSelectQuery → Option SPARQLGraphPattern
  | SPARQLSelectQuery.mk _ w _ _ _ _ _ _ => w

def SPARQLSelectQuery.distinct : SPARQLSelectQuery → Bool
  | SPARQLSelectQuery.mk _ _ d _ _ _ _ _ => d

def SPARQLSelectQuery.limit : SPARQLSelectQuery → Option Int
  | SPARQLSelectQuery.mk _ _ _ l _ _ _ _ => l

def SPARQLSelectQuery.vars : SPARQLSelectQuery → List String
  | SPARQLSelectQuery.mk _ _ _ _ v _ _ _ => v

def SPARQLSelectQuery.group_by : SPARQLSelectQuery → List GroupBy
  | SPARQLSelectQuery.mk _ _ _ _ _ g _ _ => g

def SPARQLSelectQuery.having : SPARQLSelectQuery → List PyVal
  | SPARQLSelectQuery.mk _ _ _ _ _ _ h _ => h

def SPARQLSelectQuery.order_by : SPARQLSelectQuery → List OrderBy
  | SPARQLSelectQuery.mk _ _ _ _ _ _ _ o => o

/-- Python truthiness of `self.limit` (`if self.limit:`): the `False`
default and a zero limit are both falsy. -/
def limitTruthy : Option Int → Bool
  | none => false
  | some n => n != 0

/-- Python `str(self.limit)` on the limit attribute. -/
def limitStr : Option Int → String
  | none => "False"
  | some n => toString n

/-- The non-recursive remainder of `SPARQLSelectQuery.get_text` (source
lines 294-355): prefixes, the SELECT token with optional DISTINCT, the
space-joined variables or `" *"`, the WHERE token, then the rendered
WHERE pattern (`wres`, `none` when `self.where` is unset) with its last
character stripped (`[:-1]`, which raises `TypeError` when the pattern
returned `False`), then group-by, having and order-by clause lines and
the LIMIT line; an exception anywhere is caught and converted to the
empty string. -/
def selectAssemble (prefixes : List PrefixObj) (distinct : Bool) (limit : Option Int)
    (vars : List String) (group_by : List GroupBy) (having : List PyVal)
    (order_by : List OrderBy) (indentation_depth : Nat) (wres : Option PyRet) : String :=
  let outer := indentStr indentation_depth
  match concatTexts (prefixes.map PrefixObj.get_text) "" with
  | none => ""
  | some pfx =>
    let distinct_token := if distinct then "DISTINCT " else ""
    let t1 := pfx ++ "\n" ++ outer ++ "SELECT " ++ distinct_token
    let t2 :=
      if vars.isEmpty then t1 ++ " *"
      else t1 ++ String.intercalate " " vars
    let t3 := t2 ++ "\n" ++ outer ++ "WHERE "
    let t4opt : Option String :=
      match wres with
      | none => some t3
      | some (PyRet.str s) => some (t3 ++ s.dropRight 1)
      | some PyRet.boolFalse => none
    match t4opt with
    | none => ""
    | some t4 =>
      match appendClauseLines outer (group_by.map GroupBy.get_text) t4 with
      | none => ""
      | some t5 =>
        match appendClauseLines outer (having.map pyGetText) t5 with
        | none => ""
        | some t6 =>
          match appendClauseLines outer (order_by.map OrderBy.get_text) t6 with
          | none => ""
          | some t7 =>
            if limitTruthy limit then t7 ++ "\nLIMIT " ++ limitStr limit
            else t7

mutual

/-- The entry loop of `SPARQLGraphPattern.get_text` (source lines
133-161): a `Triple` entry appends `inner + entry.get_text()`; a nested
`SPARQLGraphPattern` is rendered at `depth + 1` and spliced if truthy,
otherwise `return False`; a nested `SPARQLSelectQuery` is rendered at
`depth + 2` and wrapped in a brace pair at `inner` if truthy, otherwise
`return False`. -/
def entriesLoop : List GPEntry → Nat → String → LoopState
  | [], _, acc => LoopState.ok acc
  | GPEntry.triple t :: rest, d, acc =>
      entriesLoop rest d (acc ++ indentStr (d + 1) ++ t.get_text)
  | GPEntry.pattern q :: rest, d, acc =>
      match q.get_text (d + 1) with
      | PyRet.str s =>
          if s == "" then LoopState.retFalse
          else entriesLoop rest d (acc ++ s)
      | PyRet.boolFalse => LoopState.retFalse
  | GPEntry.select q :: rest, d, acc =>
      let s := q.get_text (d + 2)
      if s == "" then LoopState.retFalse
      else entriesLoop rest d
        (acc ++ indentStr (d + 1) ++ "\x7b" ++ s ++ indentStr (d + 1) ++ "\x7d\n")
termination_by l _ _ => sizeOf l
decreasing_by all_goals (simp_wf; try omega)

/-- `SPARQLGraphPattern.get_text` (source lines 114-178): opening line
decorated by OPTIONAL/UNION, the entry loop, the binding lines, the
filter lines, the closing brace; an exception anywhere in this frame is
caught and converted to the empty string, while a failed nested render
exits with the Python boolean `False`. -/
def SPARQLGraphPattern.get_text (p : SPARQLGraphPattern) (indentation_depth : Nat) : PyRet :=
  match p with
  | SPARQLGraphPattern.mk is_opt is_un graph filters bindings _ =>
    let outer := indentStr indentation_depth
    let inner := indentStr (indentation_depth + 1)
    let init :=
      if is_opt then outer ++ "OPTIONAL \x7b\n"
      else if is_un then outer ++ "UNION\n" ++ outer ++ "\x7b\n"
      else outer ++ "\x7b\n"
    match entriesLoop graph indentation_depth init with
    | LoopState.retFalse => PyRet.boolFalse
    | LoopState.ok t =>
      match appendLines inner (bindings.map Binding.get_text) t with
      | none => PyRet.str ""
      | some t2 =>
        match appendLines inner (filters.map Filter.get_text) t2 with
        | none => PyRet.str ""
        | some t3 => PyRet.str (t3 ++ outer ++ "\x7d\n")
termination_by sizeOf p
decreasing_by all_goals (simp_wf; try omega)

/-- `SPARQLSelectQuery.get_text` (source lines 294-355): the only
recursive step is rendering the WHERE pattern (at the same depth); the
rest of the method body is the string assembly in `selectAssemble`. -/
def SPARQLSelectQuery.get_text (q : SPARQLSelectQuery) (indentation_depth : Nat) : String :=
  match q with
  | SPARQLSelectQuery.mk prefixes whereP distinct limit vars group_by having order_by =>
    let wres : Option PyRet :=
      match whereP with
      | none => none
      | some w => some (w.get_text indentation_depth)
    selectAssemble prefixes distinct limit vars group_by having order_by indentation_depth wres
termination_by sizeOf q
decreasing_by all_goals (simp_wf; try omega)

end

/-- The `SPARQLUpdateQuery` class: `prefixes` and `where` inherited
from `SPARQLQuery`, plus the `delete` and `insert` patterns. -/
structure SPARQLUpdateQuery where
  prefixes : List PrefixObj
  whereP : Option SPARQLGraphPattern
  delete : Option SPARQLGraphPattern
  insert : Option SPARQLGraphPattern

/-- One clause block of `SPARQLUpdateQuery.get_text` (source lines
409-432): given the text accumulated so far (`none` when an exception
is already propagating) and the clause's optional pattern, do nothing
when the pattern is unset; otherwise append the token line and the
pattern's rendered text with its last character stripped (`[:-1]`,
which raises `TypeError` — propagated as `none` — when the pattern
render returned `False`). -/
def updateStep (acc : Option String) (tok outer : String)
    (op : Option SPARQLGraphPattern) (d : Nat) : Option String :=
  match acc with
  | none => none
  | some t =>
    match op with
    | none => some t
    | some p =>
      match p.get_text d with
      | PyRet.str s => some (t ++ "\n" ++ outer ++ tok ++ s.dropRight 1)
      | PyRet.boolFalse => none

/-- `SPARQLUpdateQuery.get_text` (source lines 391-438): prefixes, then
the DELETE, INSERT and WHERE clause blocks in that fixed order, each
rendered only if its pattern is set; an exception anywhere is caught
and converted to the empty string. -/
def SPARQLUpdateQuery.get_text (u : SPARQLUpdateQuery) (indentation_depth : Nat) : String :=
  let outer := indentStr indentation_depth
  let body : Option String :=
    updateStep (updateStep (updateStep
      (concatTexts (u.prefixes.map PrefixObj.get_text) "")
      "DELETE " outer u.delete indentation_depth)
      "INSERT " outer u.insert indentation_depth)
      "WHERE " outer u.whereP indentation_depth
  match body with
  | none => ""
  | some s => s

/-- `SPARQLGraphPattern.add_triples` (source lines 41-51): if the
argument is a `list` whose elements are all `Triple` objects, extend
`self.graph` with them in order and return `True`; otherwise return
`False` and leave the object unchanged. -/
def SPARQLGraphPattern.add_triples (p : SPARQLGraphPattern) (triples : PyVal) :
    Bool × SPARQLGraphPattern :=
  match p, triples with
  | SPARQLGraphPattern.mk o u g f b h, PyVal.listV l =>
    if l.all pyIsTriple then
      (true, SPARQLGraphPattern.mk o u
        (g ++ l.filterMap fun v =>
          match v with
          | PyVal.triple t => some (GPEntry.triple t)
          | _ => none) f b h)
    else (false, SPARQLGraphPattern.mk o u g f b h)
  | pp, _ => (false, pp)

/-- `SPARQLGraphPattern.add_having` (source lines 90-100): append to
`self.havings` and return `True` if the argument is a `Having` object,
otherwise return `False` and leave the object unchanged. -/
def SPARQLGraphPattern.add_having (p : SPARQLGraphPattern) (having : PyVal) :
    Bool × SPARQLGraphPattern :=
  match p, having with
  | SPARQLGraphPattern.mk o u g f b h, PyVal.havingV hv =>
      (true, SPARQLGraphPattern.mk o u g f b (h ++ [hv]))
  | pp, _ => (false, pp)

/-- `SPARQLSelectQuery.add_having` (source lines 289-292): unlike every
other add-operation, this method performs no type check at all — it
appends the argument to `self.having` and returns `True`
unconditionally. -/
def SPARQLSelectQuery.add_having (q : SPARQLSelectQuery) (having : PyVal) :
    Bool × SPARQLSelectQuery :=
  match q with
  | SPARQLSelectQuery.mk pres wh dist lim vs gb hv ob =>
      (true, SPARQLSelectQuery.mk pres wh dist lim vs gb (hv ++ [having]) ob)

/-- State-threading form of `SPARQLGraphPattern.get_text`: the method
body (source lines 114-178) contains no assignment to any attribute of
`self` or of any nested object, so the object emerges from the call
unchanged next to the computed text. -/
def SPARQLGraphPattern.get_text_st (p : SPARQLGraphPattern) (indentation_depth : Nat) :
    PyRet × SPARQLGraphPattern :=
  (p.get_text indentation_depth, p)

/-- State-threading form of `SPARQLSelectQuery.get_text`: the method
body (source lines 294-355) contains no assignment to any attribute. -/
def SPARQLSelectQuery.get_text_st (q : SPARQLSelectQuery) (indentation_depth : Nat) :
    String × SPARQLSelectQuery :=
  (q.get_text indentation_depth, q)

/-- State-threading form of `SPARQLUpdateQuery.get_text`: the method
body (source lines 391-438) contains no assignment to any attribute. -/
def SPARQLUpdateQuery.get_text_st (u : SPARQLUpdateQuery) (indentation_depth : Nat) :
    String × SPARQLUpdateQuery :=
  (u.get_text indentation_depth, u)

mutual

/-- Verification predicate (not part of the source): every leaf render
consulted while rendering one of these entries succeeds (no exception
is raised anywhere in the subtree). -/
def entriesWF : List GPEntry → Bool
  | [] => true
  | GPEntry.triple _ :: rest => entriesWF rest
  | GPEntry.pattern p :: rest => p.wf && entriesWF rest
  | GPEntry.select q :: rest => q.wf && entriesWF rest
termination_by l => sizeOf l
decreasing_by all_goals (simp_wf; try omega)

/-- Verification predicate (not part of the source): every leaf render
consulted while rendering this graph pattern succeeds. -/
def SPARQLGraphPattern.wf : SPARQLGraphPattern → Bool
  | SPARQLGraphPattern.mk _ _ g f b _ =>
      entriesWF g && f.all (fun x => x.text.isSome) && b.all (fun x => x.text.isSome)
termination_by p => sizeOf p
decreasing_by all_goals (simp_wf; try omega)

/-- Verification predicate (not part of the source): every leaf render
consulted while rendering this select query succeeds. -/
def SPARQLSelectQuery.wf : SPARQLSelectQuery → Bool
  | SPARQLSelectQuery.mk pres wh _ _ _ gb hv ob =>
      pres.all (fun x => x.text.isSome) &&
      (match wh with
       | none => true
       | some w => w.wf) &&
      gb.all (fun x => x.text.isSome) &&
      hv.all (fun v => (pyGetText v).isSome) &&
      ob.all (fun x => x.text.isSome)
termination_by q => sizeOf q
decreasing_by all_goals (simp_wf; try omega)

end

/-- A graph-pattern entry fails to render from depth `d`: a nested
graph pattern whose recursive render is falsy, or a nested select query
whose recursive render is the empty string. -/
def entryFails (e : GPEntry) (d : Nat) : Bool :=
  match e with
  | GPEntry.triple _ => false
  | GPEntry.pattern q => !(q.get_text (d + 1)).truthy
  | GPEntry.select q => q.get_text (d + 2) == ""

theorem appendLines_extend (inner : String) :
    ∀ (items : List (Option String)) (acc r : String),
      appendLines inner items acc = some r → acc.data <+: r.data := by
  intro items
  induction items with
  | nil =>
    intro acc r h
    simp [appendLines] at h
    simp [h]
  | cons x rest ih =>
    intro acc r h
    cases x with
    | none => simp [appendLines] at h
    | some s =>
      have h2 := ih (acc ++ inner ++ s ++ "\n") r (by simpa [appendLines] using h)
      refine List.IsPrefix.trans ?_ h2
      simp [String.data_append]

theorem appendClauseLines_extend (outer : String) :
    ∀ (items : List (Option String)) (acc r : String),
      appendClauseLines outer items acc = some r → acc.data <+: r.data := by
  intro items
  induction items with
  | nil =>
    intro acc r h
    simp [appendClauseLines] at h
    simp [h]
  | cons x rest ih =>
    intro acc r h
    cases x with
    | none => simp [appendClauseLines] at h
    | some s =>
      have h2 := ih (acc ++ "\n" ++ outer ++ s) r (by simpa [appendClauseLines] using h)
      refine List.IsPrefix.trans ?_ h2
      simp [String.data_append]

theorem concatTexts_extend :
    ∀ (items : List (Option String)) (acc r : String),
      concatTexts items acc = some r → acc.data <+: r.data := by
  intro items
  induction items with
  | nil =>
    intro acc r h
    simp [concatTexts] at h
    simp [h]
  | cons x rest ih =>
    intro acc r h
    cases x with
    | none => simp [concatTexts] at h
    | some s =>
      have h2 := ih (acc ++ s) r (by simpa [concatTexts] using h)
      refine List.IsPrefix.trans ?_ h2
      simp [String.data_append]

theorem entriesLoop_extend :
    ∀ (l : List GPEntry) (d : Nat) (acc r : String),
      entriesLoop l d acc = LoopState.ok r → acc.data <+: r.data := by
  intro l
  induction l with
  | nil =>
    intro d acc r h
    simp [entriesLoop] at h
    simp [h]
  | cons e rest ih =>
    intro d acc r h
    cases e with
    | triple t =>
      have h2 := ih d (acc ++ indentStr (d + 1) ++ t.get_text) r
        (by simpa [entriesLoop] using h)
      refine List.IsPrefix.trans ?_ h2
      simp [String.data_append]
    | pattern q =>
      rw [entriesLoop] at h
      cases hq : q.get_text (d + 1) with
      | str s =>
        rw [hq] at h
        by_cases hs : s == ""
        · simp [hs] at h
        · simp only [hs, if_false, Bool.false_eq_true] at h
          have h2 := ih d (acc ++ s) r h
          refine List.IsPrefix.trans ?_ h2
          simp [String.data_append]
      | boolFalse => rw [hq] at h; simp at h
    | select q =>
      rw [entriesLoop] at h
      by_cases hs : q.get_text (d + 2) == ""
      · simp [hs] at h
      · simp only [hs, if_false, Bool.false_eq_true] at h
        have h2 := ih d
          (acc ++ indentStr (d + 1) ++ "\x7b" ++ q.get_text (d + 2) ++ indentStr (d + 1) ++ "\x7d\n") r h
        refine List.IsPrefix.trans ?_ h2
        simp [String.data_append]

theorem appendLines_some (inner : String) :
    ∀ (items : List (Option String)) (acc : String),
      items.all Option.isSome = true → ∃ r, appendLines inner items acc = some r := by
  intro items
  induction items with
  | nil => intro acc _; exact ⟨acc, by simp [appendLines]⟩
  | cons x rest ih =>
    intro acc hall
    cases x with
    | none => simp at hall
    | some s =>
      obtain ⟨r, hr⟩ := ih (acc ++ inner ++ s ++ "\n") (by simpa using hall)
      exact ⟨r, by simpa [appendLines] using hr⟩

theorem appendClauseLines_some (outer : String) :
    ∀ (items : List (Option String)) (acc : String),
      items.all Option.isSome = true → ∃ r, appendClauseLines outer items acc = some r := by
  intro items
  induction items with
  | nil => intro acc _; exact ⟨acc, by simp [appendClauseLines]⟩
  | cons x rest ih =>
    intro acc hall
    cases x with
    | none => simp at hall
    | some s =>
      obtain ⟨r, hr⟩ := ih (acc ++ "\n" ++ outer ++ s) (by simpa using hall)
      exact ⟨r, by simpa [appendClauseLines] using hr⟩

theorem concatTexts_some :
    ∀ (items : List (Option String)) (acc : String),
      items.all Option.isSome = true → ∃ r, concatTexts items acc = some r := by
  intro items
  induction items with
  | nil => intro acc _; exact ⟨acc, by simp [concatTexts]⟩
  | cons x rest ih =>
    intro acc hall
    cases x with
    | none => simp at hall
    | some s =>
      obtain ⟨r, hr⟩ := ih (acc ++ s) (by simpa using hall)
      exact ⟨r, by simpa [concatTexts] using hr⟩

theorem appendLines_none (inner : String) :
    ∀ (items : List (Option String)) (acc : String),
      none ∈ items → appendLines inner items acc = none := by
  intro items
  induction items with
  | nil => intro acc h; simp at h
  | cons x rest ih =>
    intro acc h
    cases x with
    | none => simp [appendLines]
    | some s =>
      rcases List.mem_cons.mp h with h1 | h1
      · exact absurd h1 (by simp)
      · simpa [appendLines] using ih (acc ++ inner ++ s ++ "\n") h1

theorem string_append_ne_empty (a b : String) (hb : b.length ≠ 0) : a ++ b ≠ "" := by
  intro h
  have hlen := congrArg String.length h
  rw [String.length_append, String.length_empty] at hlen
  omega

theorem string_length_le_of_data_prefix {a b : String} (hp : a.data <+: b.data) :
    a.length ≤ b.length := by
  cases a
  cases b
  simpa [String.length] using hp.length_le

theorem entriesLoop_fails :
    ∀ (l : List GPEntry) (d : Nat) (acc : String),
      (∃ e ∈ l, entryFails e d = true) → entriesLoop l d acc = LoopState.retFalse := by
  intro l
  induction l with
  | nil =>
    intro d acc h
    obtain ⟨e, he, _⟩ := h
    simp at he
  | cons e0 rest ih =>
    intro d acc h
    obtain ⟨e, he, hf⟩ := h
    cases e0 with
    | triple t =>
      rw [entriesLoop]
      apply ih
      rcases List.mem_cons.mp he with h1 | h1
      · rw [h1] at hf; simp [entryFails] at hf
      · exact ⟨e, h1, hf⟩
    | pattern q =>
      rw [entriesLoop]
      cases hq : q.get_text (d + 1) with
      | str s =>
        by_cases hs : s = ""
        · simp [hs]
        · simp only [beq_iff_eq, hs, if_false]
          apply ih
          rcases List.mem_cons.mp he with h1 | h1
          · rw [h1] at hf
            simp [entryFails, hq, PyRet.truthy, hs] at hf
          · exact ⟨e, h1, hf⟩
      | boolFalse => simp
    | select q =>
      rw [entriesLoop]
      by_cases hs : q.get_text (d + 2) = ""
      · simp [hs]
      · simp only [beq_iff_eq, hs, if_false]
        apply ih
        rcases List.mem_cons.mp he with h1 | h1
        · rw [h1] at hf
          simp [entryFails, hs] at hf
        · exact ⟨e, h1, hf⟩

theorem string_ne_empty_of_length (s : String) (h : s.length ≠ 0) : s ≠ "" := by
  intro he
  subst he
  simp [String.length_empty] at h

theorem entriesLoop_ok_of (l : List GPEntry) (d : Nat)
    (h : ∀ e ∈ l, (∀ p, e = GPEntry.pattern p → (p.get_text (d + 1)).truthy = true) ∧
         (∀ q, e = GPEntry.select q → q.get_text (d + 2) ≠ "")) :
    ∀ acc, entriesLoop l d acc ≠ LoopState.retFalse := by
  induction l with
  | nil => intro acc; simp [entriesLoop]
  | cons e rest ih =>
    intro acc
    have hrest := ih (fun e2 he2 => h e2 (List.mem_cons_of_mem _ he2))
    cases e with
    | triple t => rw [entriesLoop]; exact hrest _
    | pattern q =>
      have hq := (h _ (List.mem_cons_self _ _)).1 q rfl
      rw [entriesLoop]
      cases hg : q.get_text (d + 1) with
      | str s =>
        rw [hg] at hq
        simp [PyRet.truthy] at hq
        simp only [beq_iff_eq, hq, if_false]
        exact hrest _
      | boolFalse =>
        rw [hg] at hq
        simp [PyRet.truthy] at hq
    | select q =>
      have hq := (h _ (List.mem_cons_self _ _)).2 q rfl
      rw [entriesLoop]
      simp only [beq_iff_eq, hq, if_false]
      exact hrest _

theorem entriesWF_mem :
    ∀ (l : List GPEntry), entriesWF l = true → ∀ e ∈ l,
      (∀ p, e = GPEntry.pattern p → p.wf = true) ∧
      (∀ q, e = GPEntry.select q → q.wf = true) := by
  intro l
  induction l with
  | nil => intro _ e he; simp at he
  | cons e0 rest ih =>
    intro hwf e he
    cases e0 with
    | triple t =>
      rw [entriesWF] at hwf
      rcases List.mem_cons.mp he with h1 | h1
      · subst h1
        exact ⟨fun p hp => by simp at hp, fun q hq => by simp at hq⟩
      · exact ih hwf e h1
    | pattern p0 =>
      rw [entriesWF, Bool.and_eq_true] at hwf
      rcases List.mem_cons.mp he with h1 | h1
      · subst h1
        refine ⟨fun p hp => ?_, fun q hq => by simp at hq⟩
        injection hp with h2
        subst h2
        exact hwf.1
      · exact ih hwf.2 e h1
    | select q0 =>
      rw [entriesWF, Bool.and_eq_true] at hwf
      rcases List.mem_cons.mp he with h1 | h1
      · subst h1
        refine ⟨fun p hp => by simp at hp, fun q hq => ?_⟩
        injection hq with h2
        subst h2
        exact hwf.1
      · exact ih hwf.2 e h1

theorem pattern_get_text_truthy (o u : Bool) (g : List GPEntry) (f : List Filter)
    (b : List Binding) (hvs : List Having) (d : Nat)
    (hg : ∀ acc, entriesLoop g d acc ≠ LoopState.retFalse)
    (hf : f.all (fun x => x.text.isSome) = true)
    (hb : b.all (fun x => x.text.isSome) = true) :
    ((SPARQLGraphPattern.mk o u g f b hvs).get_text d).truthy = true := by
  cases o <;> cases u <;>
  · simp only [SPARQLGraphPattern.get_text]
    split
    next heq => exact absurd heq (hg _)
    next t heq =>
      split
      next heq2 =>
        obtain ⟨r2, hr2⟩ := appendLines_some (indentStr (d + 1)) (b.map Binding.get_text) t
          (by simpa [Binding.get_text, Function.comp] using hb)
        rw [hr2] at heq2
        simp at heq2
      next t2 heq2 =>
        split
        next heq3 =>
          obtain ⟨r3, hr3⟩ := appendLines_some (indentStr (d + 1)) (f.map Filter.get_text) t2
            (by simpa [Filter.get_text, Function.comp] using hf)
          rw [hr3] at heq3
          simp at heq3
        next t3 heq3 =>
          simp only [PyRet.truthy, Bool.not_eq_eq_eq_not, Bool.not_true, beq_eq_false_iff_ne, ne_eq]
          exact string_append_ne_empty _ _ (by decide)

theorem selectAssemble_ne_empty (pres : List PrefixObj) (dist : Bool) (lim : Option Int)
    (vs : List String) (gb : List GroupBy) (hvs : List PyVal) (ob : List OrderBy)
    (d : Nat) (wres : Option PyRet)
    (hw : wres ≠ some PyRet.boolFalse)
    (hpres : pres.all (fun x => x.text.isSome) = true)
    (hgb : gb.all (fun x => x.text.isSome) = true)
    (hhv : hvs.all (fun v => (pyGetText v).isSome) = true)
    (hob : ob.all (fun x => x.text.isSome) = true) :
    selectAssemble pres dist lim vs gb hvs ob d wres ≠ "" := by
  simp only [selectAssemble]
  split
  next heqc =>
    exfalso
    obtain ⟨r, hr⟩ := concatTexts_some (pres.map PrefixObj.get_text) ""
      (by simpa [PrefixObj.get_text, Function.comp] using hpres)
    rw [hr] at heqc
    simp at heqc
  next pfx heqc =>
    split
    next heq4 =>
      exfalso
      rcases wres with _ | r
      · simp at heq4
      · rcases r with sr | _
        · simp at heq4
        · exact hw rfl
    next t4 heq4 =>
      have h6 : 6 ≤ t4.length := by
        rcases wres with _ | r
        · simp only [Option.some.injEq] at heq4
          rw [← heq4, String.length_append]
          have hW : ("WHERE " : String).length = 6 := rfl
          omega
        · rcases r with sr | _
          · simp only [Option.some.injEq] at heq4
            rw [← heq4, String.length_append, String.length_append]
            have hW : ("WHERE " : String).length = 6 := rfl
            omega
          · exact absurd rfl hw
      split
      next heq5 =>
        exfalso
        obtain ⟨r, hr⟩ := appendClauseLines_some (indentStr d) (gb.map GroupBy.get_text) t4
          (by simpa [GroupBy.get_text, Function.comp] using hgb)
        rw [hr] at heq5
        simp at heq5
      next t5 heq5 =>
        have h45 : t4.length ≤ t5.length :=
          string_length_le_of_data_prefix (appendClauseLines_extend _ _ _ _ heq5)
        split
        next heq6 =>
          exfalso
          obtain ⟨r, hr⟩ := appendClauseLines_some (indentStr d) (hvs.map pyGetText) t5
            (by simpa [Function.comp] using hhv)
          rw [hr] at heq6
          simp at heq6
        next t6 heq6 =>
          have h56 : t5.length ≤ t6.length :=
            string_length_le_of_data_prefix (appendClauseLines_extend _ _ _ _ heq6)
          split
          next heq7 =>
            exfalso
            obtain ⟨r, hr⟩ := appendClauseLines_some (indentStr d) (ob.map OrderBy.get_text) t6
              (by simpa [OrderBy.get_text, Function.comp] using hob)
            rw [hr] at heq7
            simp at heq7
          next t7 heq7 =>
            have h67 : t6.length ≤ t7.length :=
              string_length_le_of_data_prefix (appendClauseLines_extend _ _ _ _ heq7)
            split
            · apply string_ne_empty_of_length
              rw [String.length_append, String.length_append]
              omega
            · apply string_ne_empty_of_length
              omega

theorem select_get_text_ne_empty (pres : List PrefixObj) (wh : Option SPARQLGraphPattern)
    (dist : Bool) (lim : Option Int) (vs : List String) (gb : List GroupBy)
    (hvs : List PyVal) (ob : List OrderBy) (d : Nat)
    (hw : ∀ w, wh = some w → (w.get_text d).truthy = true)
    (hpres : pres.all (fun x => x.text.isSome) = true)
    (hgb : gb.all (fun x => x.text.isSome) = true)
    (hhv : hvs.all (fun v => (pyGetText v).isSome) = true)
    (hob : ob.all (fun x => x.text.isSome) = true) :
    (SPARQLSelectQuery.mk pres wh dist lim vs gb hvs ob).get_text d ≠ "" := by
  rw [SPARQLSelectQuery.get_text.eq_def]
  apply selectAssemble_ne_empty _ _ _ _ _ _ _ _ _ ?_ hpres hgb hhv hob
  cases wh with
  | none => simp
  | some w =>
    have ht := hw w rfl
    intro hcontra
    injection hcontra with h2
    rw [h2] at ht
    simp [PyRet.truthy] at ht

theorem wf_render_aux : ∀ n : Nat,
    (∀ p : SPARQLGraphPattern, sizeOf p ≤ n → p.wf = true →
      ∀ d : Nat, (p.get_text d).truthy = true) ∧
    (∀ q : SPARQLSelectQuery, sizeOf q ≤ n → q.wf = true →
      ∀ d : Nat, q.get_text d ≠ "") := by
  intro n
  induction n using Nat.strong_induction_on with
  | _ n ih =>
    constructor
    · rintro ⟨o, u, g, f, b, hv⟩ hsize hwf d
      simp only [SPARQLGraphPattern.wf, Bool.and_eq_true] at hwf
      obtain ⟨⟨hg, hf⟩, hb⟩ := hwf
      have hgn : sizeOf g < n := by
        have h1 : sizeOf g < sizeOf (SPARQLGraphPattern.mk o u g f b hv) := by
          simp
          omega
        omega
      apply pattern_get_text_truthy _ _ _ _ _ _ _ ?_ hf hb
      apply entriesLoop_ok_of
      intro e he
      have hsz_e : sizeOf e < sizeOf g := List.sizeOf_lt_of_mem he
      have hmem := entriesWF_mem g hg e he
      constructor
      · intro p hp
        have hwf_p := hmem.1 p hp
        subst hp
        simp at hsz_e
        exact (ih (sizeOf p) (by omega)).1 p le_rfl hwf_p (d + 1)
      · intro q hq
        have hwf_q := hmem.2 q hq
        subst hq
        simp at hsz_e
        exact (ih (sizeOf q) (by omega)).2 q le_rfl hwf_q (d + 2)
    · rintro ⟨pres, wh, dist, lim, vs, gb, hvs, ob⟩ hsize hwf d
      simp only [SPARQLSelectQuery.wf.eq_def, Bool.and_eq_true] at hwf
      obtain ⟨⟨⟨⟨hpres, hwh⟩, hgb⟩, hhv⟩, hob⟩ := hwf
      apply select_get_text_ne_empty _ _ _ _ _ _ _ _ _ ?_ hpres hgb hhv hob
      intro w hwsome
      subst hwsome
      simp at hwh
      have hwn : sizeOf w < n := by
        have h1 : sizeOf w < sizeOf (SPARQLSelectQuery.mk pres (some w) dist lim vs gb hvs ob) := by
          simp
          omega
        omega
      exact (ih (sizeOf w) hwn).1 w le_rfl hwh d

theorem wf_pattern_truthy (p : SPARQLGraphPattern) (hwf : p.wf = true) (d : Nat) :
    (p.get_text d).truthy = true :=
  (wf_render_aux (sizeOf p)).1 p le_rfl hwf d

theorem wf_select_ne_empty (q : SPARQLSelectQuery) (hwf : q.wf = true) (d : Nat) :
    q.get_text d ≠ "" :=
  (wf_render_aux (sizeOf q)).2 q le_rfl hwf d

/-- The string `pat` occurs contiguously inside the string `s`. -/
def containsStr (pat s : String) : Prop :=
  pat.data <:+: s.data

instance (pat s : String) : Decidable (containsStr pat s) :=
  inferInstanceAs (Decidable (pat.data <:+: s.data))

theorem containsStr_mono {pat a b : String} (h : containsStr pat a)
    (hp : a.data <+: b.data) : containsStr pat b :=
  List.IsInfix.trans h hp.isInfix

theorem containsStr_append {pat : String} (a b : String) (h : containsStr pat a) :
    containsStr pat (a ++ b) := by
  refine containsStr_mono h ?_
  rw [String.data_append]
  exact List.prefix_append _ _

/-- The number of positions at which `pat` occurs in `s`. -/
def occurrences (pat s : String) : Nat :=
  ((List.range (s.data.length + 1)).filter
    (fun i => pat.data.isPrefixOf (s.data.drop i))).length

theorem pattern_nested_failure (p : SPARQLGraphPattern) (d : Nat)
    (h : ∃ e ∈ p.graph, entryFails e d = true) :
    p.get_text d = PyRet.boolFalse := by
  obtain ⟨o, u, g, f, b, hv⟩ := p
  simp only [SPARQLGraphPattern.graph] at h
  simp only [SPARQLGraphPattern.get_text]
  rw [entriesLoop_fails g d _ h]

theorem selectAssemble_where_false (pres : List PrefixObj) (dist : Bool) (lim : Option Int)
    (vs : List String) (gb : List GroupBy) (hvs : List PyVal) (ob : List OrderBy) (d : Nat) :
    selectAssemble pres dist lim vs gb hvs ob d (some PyRet.boolFalse) = "" := by
  simp only [selectAssemble]
  split
  next heq => rfl
  next pfx heq => rfl

theorem select_where_false (pres : List PrefixObj) (w : SPARQLGraphPattern) (dist : Bool)
    (lim : Option Int) (vs : List String) (gb : List GroupBy) (hvs : List PyVal)
    (ob : List OrderBy) (d : Nat) (hfail : w.get_text d = PyRet.boolFalse) :
    (SPARQLSelectQuery.mk pres (some w) dist lim vs gb hvs ob).get_text d = "" := by
  rw [SPARQLSelectQuery.get_text.eq_def]
  simp only [hfail]
  exact selectAssemble_where_false pres dist lim vs gb hvs ob d

theorem updateStep_none (tok outer : String) (op : Option SPARQLGraphPattern) (d : Nat) :
    updateStep none tok outer op d = none := rfl

theorem updateStep_fail (acc : Option String) (tok outer : String) (p : SPARQLGraphPattern)
    (d : Nat) (hfail : p.get_text d = PyRet.boolFalse) :
    updateStep acc tok outer (some p) d = none := by
  cases acc with
  | none => rfl
  | some t => simp [updateStep, hfail]

theorem updateStep_skip (t : String) (tok outer : String) (d : Nat) :
    updateStep (some t) tok outer none d = some t := rfl

theorem updateStep_str (t : String) (tok outer : String) (p : SPARQLGraphPattern)
    (d : Nat) (s : String) (hs : p.get_text d = PyRet.str s) :
    updateStep (some t) tok outer (some p) d =
      some (t ++ "\n" ++ outer ++ tok ++ s.dropRight 1) := by
  simp [updateStep, hs]

theorem update_pattern_false (u : SPARQLUpdateQuery) (d : Nat)
    (h : (∃ p, u.delete = some p ∧ p.get_text d = PyRet.boolFalse) ∨
         (∃ p, u.insert = some p ∧ p.get_text d = PyRet.boolFalse) ∨
         (∃ p, u.whereP = some p ∧ p.get_text d = PyRet.boolFalse)) :
    u.get_text d = "" := by
  obtain ⟨pres, wp, del, ins⟩ := u
  rcases h with ⟨p, hp, hf⟩ | ⟨p, hp, hf⟩ | ⟨p, hp, hf⟩
  · simp only at hp
    subst hp
    simp only [SPARQLUpdateQuery.get_text]
    rw [updateStep_fail _ _ _ _ _ hf, updateStep_none, updateStep_none]
  · simp only at hp
    subst hp
    simp only [SPARQLUpdateQuery.get_text]
    cases hD : updateStep (concatTexts (pres.map PrefixObj.get_text) "")
        "DELETE " (indentStr d) del d with
    | none => rw [updateStep_none, updateStep_none]
    | some t => rw [updateStep_fail _ _ _ _ _ hf, updateStep_none]
  · simp only at hp
    subst hp
    simp only [SPARQLUpdateQuery.get_text]
    cases hI : updateStep (updateStep (concatTexts (pres.map PrefixObj.get_text) "")
        "DELETE " (indentStr d) del d) "INSERT " (indentStr d) ins d with
    | none => rw [updateStep_none]
    | some t => rw [updateStep_fail _ _ _ _ _ hf]

theorem containsStr_t1 (pfx o dt mid : String) (hdt : dt.data = []) :
    containsStr ("SELECT " ++ mid) (pfx ++ "\n" ++ o ++ "SELECT " ++ dt ++ mid) := by
  refine ⟨pfx.data ++ ("\n" : String).data ++ o.data, [], ?_⟩
  simp [String.data_append, hdt]

theorem select_get_text_eq (pres : List PrefixObj) (wh : Option SPARQLGraphPattern)
    (dist : Bool) (lim : Option Int) (vs : List String) (gb : List GroupBy)
    (hvs : List PyVal) (ob : List OrderBy) (d : Nat) :
    (SPARQLSelectQuery.mk pres wh dist lim vs gb hvs ob).get_text d =
      selectAssemble pres dist lim vs gb hvs ob d
        (match wh with
         | none => none
         | some w => some (w.get_text d)) := by
  rw [SPARQLSelectQuery.get_text.eq_def]

theorem select_get_text_eq_none (pres : List PrefixObj) (dist : Bool) (lim : Option Int)
    (vs : List String) (gb : List GroupBy) (hvs : List PyVal) (ob : List OrderBy) (d : Nat) :
    (SPARQLSelectQuery.mk pres none dist lim vs gb hvs ob).get_text d =
      selectAssemble pres dist lim vs gb hvs ob d none := by
  rw [select_get_text_eq]

theorem select_get_text_eq_some (pres : List PrefixObj) (w : SPARQLGraphPattern)
    (dist : Bool) (lim : Option Int) (vs : List String) (gb : List GroupBy)
    (hvs : List PyVal) (ob : List OrderBy) (d : Nat) :
    (SPARQLSelectQuery.mk pres (some w) dist lim vs gb hvs ob).get_text d =
      selectAssemble pres dist lim vs gb hvs ob d (some (w.get_text d)) := by
  rw [select_get_text_eq]

theorem selectAssemble_contains_select (pres : List PrefixObj) (lim : Option Int)
    (vs : List String) (gb : List GroupBy) (hvs : List PyVal) (ob : List OrderBy)
    (d : Nat) (wres : Option PyRet) :
    selectAssemble pres false lim vs gb hvs ob d wres = "" ∨
    containsStr ("SELECT " ++ (if vs.isEmpty then " *" else String.intercalate " " vs))
      (selectAssemble pres false lim vs gb hvs ob d wres) := by
  have hdt : (if (false : Bool) = true then "DISTINCT " else "").data = ([] : List Char) := by
    decide
  simp only [selectAssemble]
  split
  next => exact Or.inl rfl
  next pfx heqc =>
    split
    next => exact Or.inl rfl
    next t4 heq4 =>
      have hT2 : containsStr
          ("SELECT " ++ (if vs.isEmpty then " *" else String.intercalate " " vs))
          (if vs.isEmpty
            then pfx ++ "\n" ++ indentStr d ++ "SELECT " ++
              (if (false : Bool) = true then "DISTINCT " else "") ++ " *"
            else pfx ++ "\n" ++ indentStr d ++ "SELECT " ++
              (if (false : Bool) = true then "DISTINCT " else "") ++
              String.intercalate " " vs) := by
        by_cases hise : vs.isEmpty = true
        · simp only [hise, if_true]
          exact containsStr_t1 _ _ _ _ hdt
        · simp only [if_neg hise]
          exact containsStr_t1 _ _ _ _ hdt
      have h4 : containsStr
          ("SELECT " ++ (if vs.isEmpty then " *" else String.intercalate " " vs)) t4 := by
        split at heq4
        next =>
          simp only [Option.some.injEq] at heq4
          exact heq4 ▸ containsStr_append _ _ (containsStr_append _ _ (containsStr_append _ _ hT2))
        next s heqw =>
          simp only [Option.some.injEq] at heq4
          exact heq4 ▸ containsStr_append _ _ (containsStr_append _ _
            (containsStr_append _ _ (containsStr_append _ _ hT2)))
        next heqw => simp at heq4
      split
      next => exact Or.inl rfl
      next t5 heq5 =>
        have h5 := containsStr_mono h4 (appendClauseLines_extend _ _ _ _ heq5)
        split
        next => exact Or.inl rfl
        next t6 heq6 =>
          have h6 := containsStr_mono h5 (appendClauseLines_extend _ _ _ _ heq6)
          split
          next => exact Or.inl rfl
          next t7 heq7 =>
            have h7 := containsStr_mono h6 (appendClauseLines_extend _ _ _ _ heq7)
            split
            · exact Or.inr (containsStr_append _ _ (containsStr_append _ _ h7))
            · exact Or.inr h7

/-- The end-to-end example of the spec: two triples plus a nested
optional pattern holding one triple. -/
def examplePattern : SPARQLGraphPattern :=
  SPARQLGraphPattern.mk false false
    [GPEntry.triple (Triple.mk "?person" "rdf:type" "ex:Person"),
     GPEntry.triple (Triple.mk "?person" "ex:hasName" "?name"),
     GPEntry.pattern (SPARQLGraphPattern.mk true false
        [GPEntry.triple (Triple.mk "?person" "ex:hasAge" "?age")] [] [] [])]
    [] [] []

/-- Claim C4: the example pattern (two triples, then a nested
optional=true pattern with one triple) rendered at depth 0 produces
exactly the expected text — three-space indent per level, the OPTIONAL
opening line at inner indentation, each block closed by a same-depth
brace on its own line. -/
theorem claim_C4_end_to_end :
    examplePattern.get_text 0 =
      PyRet.str "\x7b\n   ?person rdf:type ex:Person .\n   ?person ex:hasName ?name .\n   OPTIONAL \x7b\n      ?person ex:hasAge ?age .\n   \x7d\n\x7d\n" := by
  simp [examplePattern, SPARQLGraphPattern.get_text, entriesLoop, appendLines, indentStr,
    Triple.get_text]
  decide

/-- Claim C5: `add_triples` with a non-list argument, or with a list
containing a non-Triple element, returns False and leaves every field
of the pattern unchanged (no partial insertion); with a list of
Triples it returns True and appends them to the entry sequence in
order. -/
theorem claim_C5_add_triples (p : SPARQLGraphPattern) (v : PyVal) :
    (pyIsList v = false → p.add_triples v = (false, p)) ∧
    (∀ l, v = PyVal.listV l → l.all pyIsTriple = false → p.add_triples v = (false, p)) ∧
    (∀ l, v = PyVal.listV l → l.all pyIsTriple = true →
      (p.add_triples v).1 = true ∧
      (p.add_triples v).2.graph = p.graph ++ l.filterMap (fun x =>
        match x with
        | PyVal.triple t => some (GPEntry.triple t)
        | _ => none) ∧
      (p.add_triples v).2.is_optional = p.is_optional ∧
      (p.add_triples v).2.is_union = p.is_union ∧
      (p.add_triples v).2.filters = p.filters ∧
      (p.add_triples v).2.bindings = p.bindings ∧
      (p.add_triples v).2.havings = p.havings) := by
  obtain ⟨o, u, g, f, b, hv⟩ := p
  refine ⟨?_, ?_, ?_⟩
  · intro hnl
    cases v with
    | listV l => simp [pyIsList] at hnl
    | triple t => rfl
    | havingV h => rfl
    | strV s2 => rfl
    | intV n => rfl
    | noneV => rfl
  · intro l hvl hall
    subst hvl
    simp [SPARQLGraphPattern.add_triples, hall]
  · intro l hvl hall
    subst hvl
    simp [SPARQLGraphPattern.add_triples, hall, SPARQLGraphPattern.graph,
      SPARQLGraphPattern.is_optional, SPARQLGraphPattern.is_union,
      SPARQLGraphPattern.filters, SPARQLGraphPattern.bindings, SPARQLGraphPattern.havings]

/-- Witness for C5: a non-list argument is rejected with the pattern
unchanged, and a singleton Triple list is appended. -/
theorem claim_C5_witness :
    (pyIsList (PyVal.intV 7) = false ∧
      (SPARQLGraphPattern.mk false false [] [] [] []).add_triples (PyVal.intV 7) =
        (false, SPARQLGraphPattern.mk false false [] [] [] [])) ∧
    (([PyVal.triple (Triple.mk "?s" "?p" "?o")] : List PyVal).all pyIsTriple = true ∧
      ((SPARQLGraphPattern.mk false false [] [] [] []).add_triples
          (PyVal.listV [PyVal.triple (Triple.mk "?s" "?p" "?o")])).2.graph =
        [GPEntry.triple (Triple.mk "?s" "?p" "?o")]) := by
  refine ⟨⟨rfl, (claim_C5_add_triples _ _).1 rfl⟩, rfl, ?_⟩
  have h := ((claim_C5_add_triples (SPARQLGraphPattern.mk false false [] [] [] [])
      (PyVal.listV [PyVal.triple (Triple.mk "?s" "?p" "?o")])).2.2)
    [PyVal.triple (Triple.mk "?s" "?p" "?o")] rfl rfl
  exact h.2.1.trans rfl

/-- Claim C6 (amended): `SPARQLSelectQuery.add_having` performs no type
check at all — for any argument value whatsoever it returns True and
appends the value to the query's having list, leaving every other
field unchanged. -/
theorem claim_C6_add_having_unchecked (q : SPARQLSelectQuery) (v : PyVal) :
    (q.add_having v).1 = true ∧
    (q.add_having v).2.having = q.having ++ [v] ∧
    (q.add_having v).2.prefixes = q.prefixes ∧
    (q.add_having v).2.whereP = q.whereP ∧
    (q.add_having v).2.distinct = q.distinct ∧
    (q.add_having v).2.limit = q.limit ∧
    (q.add_having v).2.vars = q.vars ∧
    (q.add_having v).2.group_by = q.group_by ∧
    (q.add_having v).2.order_by = q.order_by := by
  obtain ⟨pres, wh, dist, lim, vs, gb, hvs, ob⟩ := q
  exact ⟨rfl, rfl, rfl, rfl, rfl, rfl, rfl, rfl, rfl⟩

/-- Counterexample for C6: `add_having` on a select query accepts the
integer 5 (not a Having object), returning True and modifying the
having list — not the failure flag and an unmodified list that the
claim asserts. -/
theorem claim_C6_counterexample :
    ((SPARQLSelectQuery.mk [] none false none [] [] [] []).add_having (PyVal.intV 5)).1 = true ∧
    ((SPARQLSelectQuery.mk [] none false none [] [] [] []).add_having
        (PyVal.intV 5)).2.having = [PyVal.intV 5] :=
  ⟨rfl, rfl⟩

/-- Claim C7: a Having object passed to a graph pattern's `add_having`
is accepted (True returned, object stored in `havings`), yet the
rendered text is identical to the pattern's text without it — the
havings stored on a graph pattern never appear in `get_text` output at
any depth. -/
theorem claim_C7_havings_inert (p : SPARQLGraphPattern) (hv : Having) (d : Nat) :
    (p.add_having (PyVal.havingV hv)).1 = true ∧
    (p.add_having (PyVal.havingV hv)).2.havings = p.havings ++ [hv] ∧
    (p.add_having (PyVal.havingV hv)).2.get_text d = p.get_text d := by
  obtain ⟨o, u, g, f, b, h⟩ := p
  refine ⟨rfl, rfl, ?_⟩
  show (SPARQLGraphPattern.mk o u g f b (h ++ [hv])).get_text d =
    (SPARQLGraphPattern.mk o u g f b h).get_text d
  simp only [SPARQLGraphPattern.get_text]

/-- Claim C9: rendering is pure — the state-threading forms of the
three `get_text` methods return the object unchanged (no field of it
or of any nested child is mutated), and a second call on the returned
object yields the same text. -/
theorem claim_C9_render_pure (p : SPARQLGraphPattern) (q : SPARQLSelectQuery)
    (u : SPARQLUpdateQuery) (d : Nat) :
    (p.get_text_st d).2 = p ∧ (q.get_text_st d).2 = q ∧ (u.get_text_st d).2 = u ∧
    (p.get_text_st d).1 = ((p.get_text_st d).2.get_text_st d).1 ∧
    (q.get_text_st d).1 = ((q.get_text_st d).2.get_text_st d).1 ∧
    (u.get_text_st d).1 = ((u.get_text_st d).2.get_text_st d).1 :=
  ⟨rfl, rfl, rfl, rfl, rfl, rfl⟩

/-- Claim C10: a select query built with limit 0 renders exactly like
one whose limit was left at the default (`False`) — the limit is
tested for truthiness, not for being set — and a concrete limit-0
query's text has no LIMIT clause in it. -/
theorem claim_C10_limit_zero (pres : List PrefixObj) (wh : Option SPARQLGraphPattern)
    (dist : Bool) (vs : List String) (gb : List GroupBy) (hvs : List PyVal)
    (ob : List OrderBy) (d : Nat) :
    (SPARQLSelectQuery.mk pres wh dist (some 0) vs gb hvs ob).get_text d =
      (SPARQLSelectQuery.mk pres wh dist none vs gb hvs ob).get_text d ∧
    ¬ containsStr "LIMIT"
        ((SPARQLSelectQuery.mk [] none false (some 0) [] [] [] []).get_text 0) := by
  constructor
  · rw [select_get_text_eq, select_get_text_eq]
    simp [selectAssemble, limitTruthy]
  · rw [select_get_text_eq]
    decide

/-- A graph pattern whose own frame fails: its one binding's render
raises, so the pattern's `get_text` catches the exception and returns
the empty string. -/
def innerFailing : SPARQLGraphPattern :=
  SPARQLGraphPattern.mk false false [] [] [Binding.mk none] []

/-- A graph pattern whose nested child render fails. -/
def outerFailing : SPARQLGraphPattern :=
  SPARQLGraphPattern.mk false false [GPEntry.pattern innerFailing] [] [] []

/-- Claim C2 (amended): `SPARQLGraphPattern.get_text` never raises —
its result is always either a Python string or the boolean False — and
whenever every leaf render in the pattern's subtree succeeds the
result is a nonempty string. On a failed nested render the result is
the boolean False, not the empty string the claim asserts (see the
counterexample). -/
theorem claim_C2_failure_values (p : SPARQLGraphPattern) (d : Nat) :
    ((∃ s, p.get_text d = PyRet.str s) ∨ p.get_text d = PyRet.boolFalse) ∧
    (p.wf = true → ∃ s, p.get_text d = PyRet.str s ∧ s ≠ "") := by
  constructor
  · cases h : p.get_text d with
    | str s => exact Or.inl ⟨s, rfl⟩
    | boolFalse => exact Or.inr rfl
  · intro hwf
    have ht := wf_pattern_truthy p hwf d
    cases h : p.get_text d with
    | str s =>
      rw [h] at ht
      simp [PyRet.truthy] at ht
      exact ⟨s, rfl, ht⟩
    | boolFalse =>
      rw [h] at ht
      simp [PyRet.truthy] at ht

/-- Witness for C2: a concrete well-formed pattern renders to a
nonempty string. -/
theorem claim_C2_witness :
    (SPARQLGraphPattern.mk false false [] [] [] []).wf = true ∧
    (∃ s, (SPARQLGraphPattern.mk false false [] [] [] []).get_text 0 = PyRet.str s ∧
      s ≠ "") := by
  have hwf : (SPARQLGraphPattern.mk false false [] [] [] []).wf = true := by
    simp [SPARQLGraphPattern.wf, entriesWF]
  exact ⟨hwf, (claim_C2_failure_values (SPARQLGraphPattern.mk false false [] [] [] []) 0).2 hwf⟩

/-- Counterexample for C2: on a failed nested render the pattern
returns the Python boolean False, not the empty string the claim
asserts. -/
theorem claim_C2_counterexample :
    innerFailing.get_text 1 = PyRet.str "" ∧
    outerFailing.get_text 0 = PyRet.boolFalse ∧
    PyRet.boolFalse ≠ PyRet.str "" := by
  refine ⟨?_, ?_, by decide⟩
  · simp [innerFailing, SPARQLGraphPattern.get_text, entriesLoop, appendLines,
      Binding.get_text]
  · simp [outerFailing, innerFailing, SPARQLGraphPattern.get_text, entriesLoop, appendLines,
      Binding.get_text]

/-- Claim C1 (amended): failure does propagate along these paths: a
graph pattern whose nested entry fails to render returns the boolean
False; a select query whose WHERE pattern render returns False returns
the empty string; an update query any of whose set patterns renders to
False returns the empty string. (When a child pattern instead returns
the empty string, a select or update query splices it and returns
partial text — see the counterexample.) -/
theorem claim_C1_failfast :
    (∀ (p : SPARQLGraphPattern) (d : Nat),
      (∃ e ∈ p.graph, entryFails e d = true) → p.get_text d = PyRet.boolFalse) ∧
    (∀ (pres : List PrefixObj) (w : SPARQLGraphPattern) (dist : Bool) (lim : Option Int)
        (vs : List String) (gb : List GroupBy) (hvs : List PyVal) (ob : List OrderBy)
        (d : Nat), w.get_text d = PyRet.boolFalse →
      (SPARQLSelectQuery.mk pres (some w) dist lim vs gb hvs ob).get_text d = "") ∧
    (∀ (u : SPARQLUpdateQuery) (d : Nat),
      ((∃ p, u.delete = some p ∧ p.get_text d = PyRet.boolFalse) ∨
       (∃ p, u.insert = some p ∧ p.get_text d = PyRet.boolFalse) ∨
       (∃ p, u.whereP = some p ∧ p.get_text d = PyRet.boolFalse)) →
      u.get_text d = "") :=
  ⟨pattern_nested_failure,
   fun pres w dist lim vs gb hvs ob d h =>
     select_where_false pres w dist lim vs gb hvs ob d h,
   update_pattern_false⟩

/-- Witness for C1: a pattern with a concrete failing nested entry
returns the boolean False. -/
theorem claim_C1_witness :
    (∃ e ∈ outerFailing.graph, entryFails e 0 = true) ∧
    outerFailing.get_text 0 = PyRet.boolFalse := by
  have h : ∃ e ∈ outerFailing.graph, entryFails e 0 = true := by
    refine ⟨GPEntry.pattern innerFailing, by simp [outerFailing, SPARQLGraphPattern.graph], ?_⟩
    simp [entryFails, innerFailing, SPARQLGraphPattern.get_text, entriesLoop, appendLines,
      Binding.get_text, PyRet.truthy]
  exact ⟨h, claim_C1_failfast.1 outerFailing 0 h⟩

/-- A select query whose WHERE pattern render returns the empty
string (its own binding render raised). -/
def whereFailSelect : SPARQLSelectQuery :=
  SPARQLSelectQuery.mk [] (some innerFailing) false none [] [] [] []

/-- Counterexample for C1: the select query's WHERE child render yields
the empty result, yet the ancestor `SPARQLSelectQuery.get_text` does
not return the empty-failure result: it splices the empty text and
returns the partial query text `"\nSELECT  *\nWHERE "`. -/
theorem claim_C1_counterexample :
    innerFailing.get_text 0 = PyRet.str "" ∧
    whereFailSelect.get_text 0 = "\nSELECT  *\nWHERE " ∧
    whereFailSelect.get_text 0 ≠ "" := by
  have hin : innerFailing.get_text 0 = PyRet.str "" := by
    simp [innerFailing, SPARQLGraphPattern.get_text, entriesLoop, appendLines,
      Binding.get_text]
  have h2 : whereFailSelect.get_text 0 = "\nSELECT  *\nWHERE " := by
    simp only [whereFailSelect]
    rw [select_get_text_eq]
    simp only [hin]
    decide
  refine ⟨hin, h2, ?_⟩
  rw [h2]
  decide

/-- Claim C3 (amended): a select query with no variables and DISTINCT
unset renders the select-all form with two spaces between SELECT and
the star — the format string's trailing space plus the hardcoded
`" *"` — so the text contains `"SELECT  *"`; with variables
`["?a","?b"]` the text contains `"SELECT ?a ?b"` (single spaces), as
the claim states. -/
theorem claim_C3_select_variables :
    (∀ (pres : List PrefixObj) (wh : Option SPARQLGraphPattern) (lim : Option Int)
        (gb : List GroupBy) (hvs : List PyVal) (ob : List OrderBy) (d : Nat),
      (SPARQLSelectQuery.mk pres wh false lim [] gb hvs ob).get_text d ≠ "" →
      containsStr "SELECT  *"
        ((SPARQLSelectQuery.mk pres wh false lim [] gb hvs ob).get_text d)) ∧
    (∀ (pres : List PrefixObj) (wh : Option SPARQLGraphPattern) (lim : Option Int)
        (gb : List GroupBy) (hvs : List PyVal) (ob : List OrderBy) (d : Nat),
      (SPARQLSelectQuery.mk pres wh false lim ["?a", "?b"] gb hvs ob).get_text d ≠ "" →
      containsStr "SELECT ?a ?b"
        ((SPARQLSelectQuery.mk pres wh false lim ["?a", "?b"] gb hvs ob).get_text d)) := by
  have he1 : ("SELECT " ++ (if ([] : List String).isEmpty then " *"
      else String.intercalate " " ([] : List String)) : String) = "SELECT  *" := by decide
  have he2 : ("SELECT " ++ (if (["?a", "?b"] : List String).isEmpty then " *"
      else String.intercalate " " ["?a", "?b"]) : String) = "SELECT ?a ?b" := by decide
  constructor
  · intro pres wh lim gb hvs ob d hne
    cases wh with
    | none =>
      rw [select_get_text_eq_none] at hne ⊢
      rcases selectAssemble_contains_select pres lim [] gb hvs ob d none with h | h
      · exact absurd h hne
      · rwa [he1] at h
    | some w =>
      rw [select_get_text_eq_some] at hne ⊢
      rcases selectAssemble_contains_select pres lim [] gb hvs ob d
          (some (w.get_text d)) with h | h
      · exact absurd h hne
      · rwa [he1] at h
  · intro pres wh lim gb hvs ob d hne
    cases wh with
    | none =>
      rw [select_get_text_eq_none] at hne ⊢
      rcases selectAssemble_contains_select pres lim ["?a", "?b"] gb hvs ob d none with h | h
      · exact absurd h hne
      · rwa [he2] at h
    | some w =>
      rw [select_get_text_eq_some] at hne ⊢
      rcases selectAssemble_contains_select pres lim ["?a", "?b"] gb hvs ob d
          (some (w.get_text d)) with h | h
      · exact absurd h hne
      · rwa [he2] at h

/-- Witness for C3: a concrete no-variable select query renders
nonempty text containing the two-space select-all form. -/
theorem claim_C3_witness :
    (SPARQLSelectQuery.mk [] none false none [] [] [] []).get_text 0 ≠ "" ∧
    containsStr "SELECT  *"
      ((SPARQLSelectQuery.mk [] none false none [] [] [] []).get_text 0) := by
  have hne : (SPARQLSelectQuery.mk [] none false none [] [] [] []).get_text 0 ≠ "" := by
    rw [select_get_text_eq]
    decide
  exact ⟨hne, claim_C3_select_variables.1 [] none none [] [] [] 0 hne⟩

/-- Counterexample for C3: the no-variable select query's text is
`"\nSELECT  *\nWHERE "` — two spaces — and the single-space form
`"SELECT *"` asserted by the claim does not occur in it. -/
theorem claim_C3_counterexample :
    (SPARQLSelectQuery.mk [] none false none [] [] [] []).get_text 0 =
      "\nSELECT  *\nWHERE " ∧
    ¬ containsStr "SELECT *"
        ((SPARQLSelectQuery.mk [] none false none [] [] [] []).get_text 0) := by
  refine ⟨?_, ?_⟩ <;> (rw [select_get_text_eq]; decide)

/-- A single-triple pattern used by the concrete update-query
examples. -/
def insertOnlyPattern : SPARQLGraphPattern :=
  SPARQLGraphPattern.mk false false [GPEntry.triple (Triple.mk "?s" "?p" "?o")] [] [] []

theorem string_append_empty (s : String) : s ++ "" = s := by
  apply String.ext
  have h0 : ("" : String).data = [] := rfl
  simp [String.data_append, h0]

/-- Specification-side description of one update clause's contribution
to the rendered text: nothing when the pattern is unset, otherwise the
token line followed by the pattern's rendered text with its last
character stripped. -/
def clauseText (tok outer : String) (op : Option SPARQLGraphPattern) (d : Nat) : String :=
  match op with
  | none => ""
  | some p =>
    match p.get_text d with
    | PyRet.str s => "\n" ++ outer ++ tok ++ s.dropRight 1
    | PyRet.boolFalse => ""

theorem updateStep_clause (t tok outer : String) (op : Option SPARQLGraphPattern) (d : Nat)
    (h : ∀ p, op = some p → ∃ s, p.get_text d = PyRet.str s) :
    updateStep (some t) tok outer op d = some (t ++ clauseText tok outer op d) := by
  cases op with
  | none => simp [updateStep, clauseText, string_append_empty]
  | some p =>
    obtain ⟨s, hs⟩ := h p rfl
    simp only [updateStep, clauseText, hs]
    congr 1
    apply String.ext
    simp [String.data_append]

/-- Claim C8: for every update query whose prefixes render and whose
set patterns render successfully — in any of the eight
set/unset configurations of delete, insert and where — the rendered
text decomposes as the prefix text followed by the DELETE, INSERT and
WHERE clause contributions in that fixed order, where an unset
pattern contributes nothing; moreover a concrete insert-only query's
text contains exactly one INSERT token and no DELETE or WHERE token,
and a concrete delete-only query's text contains exactly one DELETE
token and no INSERT or WHERE token. -/
theorem claim_C8_update_clauses :
    (∀ (pres : List PrefixObj) (odel oins owh : Option SPARQLGraphPattern) (d : Nat)
        (pfx : String),
      concatTexts (pres.map PrefixObj.get_text) "" = some pfx →
      (∀ p, odel = some p → ∃ s, p.get_text d = PyRet.str s) →
      (∀ p, oins = some p → ∃ s, p.get_text d = PyRet.str s) →
      (∀ p, owh = some p → ∃ s, p.get_text d = PyRet.str s) →
      (SPARQLUpdateQuery.mk pres owh odel oins).get_text d =
        pfx ++ clauseText "DELETE " (indentStr d) odel d
            ++ clauseText "INSERT " (indentStr d) oins d
            ++ clauseText "WHERE " (indentStr d) owh d) ∧
    (occurrences "INSERT"
        ((SPARQLUpdateQuery.mk [] none none (some insertOnlyPattern)).get_text 0) = 1 ∧
     occurrences "DELETE"
        ((SPARQLUpdateQuery.mk [] none none (some insertOnlyPattern)).get_text 0) = 0 ∧
     occurrences "WHERE"
        ((SPARQLUpdateQuery.mk [] none none (some insertOnlyPattern)).get_text 0) = 0) ∧
    (occurrences "DELETE"
        ((SPARQLUpdateQuery.mk [] none (some insertOnlyPattern) none).get_text 0) = 1 ∧
     occurrences "INSERT"
        ((SPARQLUpdateQuery.mk [] none (some insertOnlyPattern) none).get_text 0) = 0 ∧
     occurrences "WHERE"
        ((SPARQLUpdateQuery.mk [] none (some insertOnlyPattern) none).get_text 0) = 0) := by
  have hins : insertOnlyPattern.get_text 0 = PyRet.str "\x7b\n   ?s ?p ?o .\n\x7d\n" := by
    simp [insertOnlyPattern, SPARQLGraphPattern.get_text, entriesLoop, appendLines,
      indentStr, Triple.get_text]
    decide
  refine ⟨?_, ?_, ?_⟩
  · intro pres odel oins owh d pfx hc hdel hins2 hwh2
    simp only [SPARQLUpdateQuery.get_text]
    rw [hc, updateStep_clause _ _ _ _ _ hdel, updateStep_clause _ _ _ _ _ hins2,
      updateStep_clause _ _ _ _ _ hwh2]
  · have hu : (SPARQLUpdateQuery.mk [] none none (some insertOnlyPattern)).get_text 0 =
        "\nINSERT \x7b\n   ?s ?p ?o .\n\x7d" := by
      simp only [SPARQLUpdateQuery.get_text]
      rw [show concatTexts (List.map PrefixObj.get_text []) "" = some "" from rfl,
        updateStep_skip, updateStep_str _ _ _ _ _ _ hins, updateStep_skip]
      decide
    rw [hu]
    refine ⟨by decide, by decide, by decide⟩
  · have hu : (SPARQLUpdateQuery.mk [] none (some insertOnlyPattern) none).get_text 0 =
        "\nDELETE \x7b\n   ?s ?p ?o .\n\x7d" := by
      simp only [SPARQLUpdateQuery.get_text]
      rw [show concatTexts (List.map PrefixObj.get_text []) "" = some "" from rfl,
        updateStep_str _ _ _ _ _ _ hins, updateStep_skip, updateStep_skip]
      decide
    rw [hu]
    refine ⟨by decide, by decide, by decide⟩

/-- Witness for C8: the decomposition applied to the concrete
insert-only query, discharging the prefix and per-clause render
hypotheses. -/
theorem claim_C8_witness :
    concatTexts (List.map PrefixObj.get_text []) "" = some "" ∧
    insertOnlyPattern.get_text 0 = PyRet.str "\x7b\n   ?s ?p ?o .\n\x7d\n" ∧
    (SPARQLUpdateQuery.mk [] none none (some insertOnlyPattern)).get_text 0 =
      "" ++ clauseText "DELETE " (indentStr 0) none 0
         ++ clauseText "INSERT " (indentStr 0) (some insertOnlyPattern) 0
         ++ clauseText "WHERE " (indentStr 0) none 0 := by
  have hins : insertOnlyPattern.get_text 0 = PyRet.str "\x7b\n   ?s ?p ?o .\n\x7d\n" := by
    simp [insertOnlyPattern, SPARQLGraphPattern.get_text, entriesLoop, appendLines,
      indentStr, Triple.get_text]
    decide
  refine ⟨rfl, hins, ?_⟩
  exact claim_C8_update_clauses.1 [] none (some insertOnlyPattern) none 0 "" rfl
    (fun p hp => by simp at hp)
    (fun p hp => by
      injection hp with h2
      subst h2
      exact ⟨_, hins⟩)
    (fun p hp => by simp at hp)

end SPARQLBurger
